import Mathlib

/-!
Verification development for the hugo-aide publication controller
(plugin discovery, registration and hook dispatch engine).

The definitions below are a shallow embedding of the TypeScript sources:

* src/plugins.ts       : plugin data model, shellFileRegistrar,
                         typeScriptFileRegistrar, fileSystemPluginRegistrar,
                         discoverFileSystemPlugins
* src/publish.ts       : PublishCommandHandlerOptions (CLI option resolution),
                         the shell command enhancer installed by
                         PublishCommandHandlerPluginsManager.init, isValidModule,
                         PublishCommandHandlerContext.executeHooks and clean
* src/controller.ts    : publicationsControllerOptions (glob defaulting and
                         flag resolution), PublicationsController.clean

Runtime effects are made explicit: the filesystem is a parameter
(stat mode lookup, glob expansion, existence test), dynamic module import is
a parameter returning an outcome value (success, falsy module, thrown error),
and the observable behaviour of the dispatch and clean routines is returned
as a list of events in the order the runtime produces them.
-/

namespace HugoAide

/-- A plugin source. `fileSystem` corresponds to the TypeScript
`DiscoverFileSystemPluginSource` (a `FileSystemPluginSource` that also carries
the discovery path and the matching glob); `other` is any `PluginSource` that
lacks the `absPathAndFileName` field, so `isFileSystemPluginSource` is false
for it. -/
inductive PluginSource
  | fileSystem (systemID friendlyName absPathAndFileName discoveryPath glob : String)
  | other (systemID friendlyName : String)
deriving DecidableEq, Repr

/-- `isFileSystemPluginSource` type guard from src/plugins.ts (checks the
`absPathAndFileName` field). -/
def PluginSource.isFileSystemSource : PluginSource → Bool
  | .fileSystem .. => true
  | .other .. => false

/-- One issue of an `InvalidPluginRegistration` (src/plugins.ts,
`PluginRegistrationIssue`); diagnostics are the printable messages (an
`Error` diagnostic is represented by its message string). -/
structure PluginRegistrationIssue where
  source : PluginSource
  diagnostics : List String
deriving DecidableEq, Repr

/-- The default export of a dynamically imported module, as far as
`isValidModule` in src/publish.ts inspects it: `callable isAsyncFn` when
`typeof module.default === "function"` (with `isAsyncFn` true exactly when
`handler.constructor.name === "AsyncFunction"`), `notCallable` for any other
present value, `missing` when there is no default export. -/
inductive JsDefaultExport
  | callable (isAsyncFn : Bool)
  | notCallable
  | missing
deriving DecidableEq, Repr

/-- A successfully imported module (the `module` value of a
`DenoModulePlugin`), reduced to the only part the registrar inspects. -/
structure DenoModule where
  defaultExport : JsDefaultExport
deriving DecidableEq, Repr

/-- A registered plugin. `shellExe` is the `ShellExePlugin` built by
`shellFileRegistrar` (its `cmd` is the suggested shell invocation
`["/bin/sh", "-c", path]` captured by the closure); `hookModule` is the
`HookModulePlugin` built by `isValidModule` in src/publish.ts, recording the
imported module and the detected `isAsync` flag. -/
inductive Plugin
  | shellExe (source : PluginSource) (cmd : List String)
  | hookModule (source : PluginSource) (m : DenoModule) (isAsync : Bool)
deriving DecidableEq, Repr

/-- The `source` field shared by all plugins. -/
def Plugin.source : Plugin → PluginSource
  | .shellExe s _ => s
  | .hookModule s _ _ => s

/-- `nature.identity` assigned at registration time. -/
def Plugin.natureIdentity : Plugin → String
  | .shellExe _ _ => "shell-file-executable"
  | .hookModule _ _ _ => "deno-module"

/-- Result of a registrar call: `ValidPluginRegistration` or
`InvalidPluginRegistration` from src/plugins.ts. Registrars return this as
data; they never throw (the dynamic import try/catch is embedded in
`ImportOutcome`). -/
inductive PluginRegistration
  | valid (source : PluginSource) (plugin : Plugin)
  | invalid (source : PluginSource) (issues : List PluginRegistrationIssue)
deriving DecidableEq, Repr

/-- Whether a registration is valid and carries a `ShellExePlugin`. -/
def PluginRegistration.isValidShellExe : PluginRegistration → Bool
  | .valid _ (.shellExe _ _) => true
  | _ => false

/-- The `isExecutable` helper inside `shellFileRegistrar` (src/plugins.ts
lines 206-222). `mode` is `Deno.statSync(path).mode`, which is `null` on
hosts without a POSIX mode (embedded as `none`); the code computes
`fi.mode != null ? (fi.mode & 0o0001 ? true : false) : true` and on success
returns the suggested command `["/bin/sh", "-c", path]`. -/
def isExecutable (mode : Option Nat) (p : String) : Option (List String) :=
  let isExe : Bool :=
    match mode with
    | some m => Nat.land m 1 != 0
    | none => true
  if isExe then some ["/bin/sh", "-c", p] else none

/-- Spec-side reading of "the execute permission bit is set, treating every
file as executable when no POSIX mode is available"; the bit tested is the
one the code tests (`mode & 0o0001`). -/
def execBitSet (mode : Option Nat) : Bool :=
  match mode with
  | some m => Nat.land m 1 != 0
  | none => true

/-- `shellFileRegistrar` from src/plugins.ts (lines 203-281), with the
filesystem stat made explicit (`stat path` is `Deno.statSync(path).mode`).
For a file system source it wraps the executable as a `ShellExePlugin`, or
returns the invalid registration with diagnostic
"executable bit not set on source"; for any other source it returns the
invalid registration explaining it only registers file system sources. -/
def shellFileRegistrar (stat : String → Option Nat) (src : PluginSource) :
    PluginRegistration :=
  match src with
  | .fileSystem _ _ abs _ _ =>
    match isExecutable (stat abs) abs with
    | some cmd => .valid src (.shellExe src cmd)
    | none =>
      .invalid src [⟨src, ["executable bit not set on source"]⟩]
  | .other _ _ =>
    .invalid src
      [⟨src, ["shellFileRegistrar() only knows how to register file system sources"]⟩]

/-- `isValidModule` passed as `typeScriptFileRegistryOptions` by
`PublishCommandHandlerPluginsManager.init` (src/publish.ts lines 288-332):
a callable default export yields a valid `HookModulePlugin` with the
detected `isAsync` flag; anything else yields the invalid registration with
diagnostic "does not have a default function". -/
def isValidModule (potential : DenoModule) (src : PluginSource) :
    PluginRegistration :=
  match potential.defaultExport with
  | .callable isAsync => .valid src (.hookModule src potential isAsync)
  | .notCallable => .invalid src [⟨src, ["does not have a default function"]⟩]
  | .missing => .invalid src [⟨src, ["does not have a default function"]⟩]

/-- Outcome of `await import(path.toFileUrl(abs).toString())` inside the
try block of `typeScriptFileRegistrar`: the module value when the import
resolves truthy, `importedFalsy` when it resolves falsy, or the thrown
error (represented by its message) when the import rejects. -/
inductive ImportOutcome
  | imported (m : DenoModule)
  | importedFalsy
  | thrown (err : String)
deriving DecidableEq, Repr

/-- `typeScriptFileRegistrar` from src/plugins.ts (lines 289-339), with the
dynamic import made explicit. The try/catch is total: a thrown import error
becomes an invalid registration carrying the error as its diagnostic. -/
def typeScriptFileRegistrar (dynImport : String → ImportOutcome)
    (src : PluginSource) : PluginRegistration :=
  match src with
  | .fileSystem _ _ abs _ _ =>
    match dynImport abs with
    | .imported m => isValidModule m src
    | .importedFalsy =>
      .invalid src
        [⟨src, ["invalid typeScriptFileRegistrar plugin: unable to import module (unknown error)"]⟩]
    | .thrown err => .invalid src [⟨src, [err]⟩]
  | .other _ _ =>
    .invalid src
      [⟨src, ["typeScriptFileRegistrar() only knows how to register file system sources"]⟩]

/-- `path.extname`: the extension of the final path segment, from its last
dot; a leading dot of the segment does not start an extension. -/
def extname (p : String) : String :=
  let base := (p.data.reverse.takeWhile fun c => c != '/').reverse
  if base.contains '.' = false then ""
  else
    let afterLastDot := (base.reverse.takeWhile fun c => c != '.').reverse
    if base.length = afterLastDot.length + 1 then ""
    else ⟨'.' :: afterLastDot⟩

/-- `fileSystemPluginRegistrar` from src/plugins.ts (lines 341-353):
dispatch on the file extension of `absPathAndFileName`, `.ts` to the module
registrar and everything else to the shell file registrar, then apply the
chosen registrar to the source. -/
def fileSystemPluginRegistrar (stat : String → Option Nat)
    (dynImport : String → ImportOutcome) (absPathAndFileName : String)
    (src : PluginSource) : PluginRegistration :=
  if extname absPathAndFileName = ".ts" then typeScriptFileRegistrar dynImport src
  else shellFileRegistrar stat src

/-- One entry produced by `fs.expandGlobSync` (path plus the `isFile`
flag, the only fields the discovery loop reads). -/
structure WalkEntry where
  path : String
  isFile : Bool
deriving DecidableEq, Repr

/-- The candidate-production part of `discoverFileSystemPlugins`
(src/plugins.ts lines 373-406): for each glob in list order, for each
entry of `expand glob` in traversal order, if the entry is a file build the
`DiscoverFileSystemPluginSource` (systemID and absolute path are the entry
path, friendly name is the path relative to the discovery root). `expand`
embeds `fs.expandGlobSync(glob, root)` and `rel` embeds `path.relative`. -/
def discoverCandidates (expand : String → List WalkEntry)
    (rel : String → String → String) (homePath : String) :
    List String → List PluginSource
  | [] => []
  | g :: gs =>
    ((expand g).filterMap fun we =>
      if we.isFile then
        some (.fileSystem we.path (rel homePath we.path) we.path homePath g)
      else none)
      ++ discoverCandidates expand rel homePath gs

/-- The options record fields consumed by the shell command enhancer
(`PublishCommandHandlerOptions`): target identifiers, the two flags, and
the custom arguments in insertion order (`Object.entries(this.options.arguments)`). -/
structure ControllerOptions where
  targets : List String
  isVerbose : Bool
  isDryRun : Bool
  args : List (String × String)
deriving DecidableEq, Repr

/-- The `shellCmdEnhancer` installed by
`PublishCommandHandlerPluginsManager.init` (src/publish.ts lines 224-241)
and, identically, `PublicationsControllerPluginsManager.enhanceShellCmd`
(src/controller.ts lines 423-442): copy the suggested command, push the
step, the targets (when nonempty, which appends nothing when empty), the
flags, then each custom argument as a name value pair. -/
def shellCmdEnhancer (opts : ControllerOptions) (step : String)
    (suggestedCmd : List String) : List String :=
  suggestedCmd ++ [step] ++ opts.targets
    ++ (if opts.isVerbose then ["--verbose"] else [])
    ++ (if opts.isDryRun then ["--dry-run"] else [])
    ++ opts.args.flatMap fun a => [a.1, a.2]

/-- The `shellCmd` member of a registered `ShellExePlugin`
(src/plugins.ts lines 241-245) with the enhancer from
`PublishCommandHandlerPluginsManager.init`: the enhancer applied to the
captured suggested command; `none` for module plugins, which have no
`shellCmd`. -/
def pluginShellCmd (opts : ControllerOptions) (step : String) :
    Plugin → Option (List String)
  | .shellExe _ cmd => some (shellCmdEnhancer opts step cmd)
  | .hookModule _ _ _ => none

/-- JavaScript object assignment `m[k] = v` on a string-keyed record,
preserving insertion order: an existing key keeps its position and gets the
new value, a new key is appended. -/
def jsRecordSet (m : List (String × String)) (k v : String) :
    List (String × String) :=
  if m.any (fun p => p.1 == k) then
    m.map fun p => if p.1 == k then (k, v) else p
  else m ++ [(k, v)]

/-- The warning printed by `console.error` when the `--arg` and `--argv`
lists have different lengths (src/publish.ts lines 190-197 and
src/controller.ts lines 301-308); terminal colour wrappers are rendered as
plain text. -/
def balancedWarningText (anLen avLen : Nat) : String :=
  "--arg and --argv must be balanced" ++ ": " ++ "there are "
    ++ toString anLen ++ " arg names and " ++ toString avLen ++ " values"

/-- The custom-argument resolution of `PublishCommandHandlerOptions` and
`publicationsControllerOptions`: with balanced lists, assign
`arguments[an[i]] = av[i]` for each position; otherwise leave the map
empty and emit the warning. Returns the map (insertion order) and the list
of emitted warnings. -/
def resolveCustomArguments (an av : List String) :
    List (String × String) × List String :=
  if an.length = av.length then
    ((an.zip av).foldl (fun m kv => jsRecordSet m kv.1 kv.2) [], [])
  else
    ([], [balancedWarningText an.length av.length])

/-- The universal default hook glob of `publicationsControllerOptions`
(src/controller.ts line 285). -/
def defaultHookGlobs : List String := ["*.hook-pubctl.*"]

/-- The glob defaulting of `publicationsControllerOptions`
(src/controller.ts lines 285-288): for each default glob, if the CLI list
does not already contain it, unshift it to the front. -/
def addDefaultGlobs (hooksGlobs : List String) : List String :=
  defaultHookGlobs.foldl
    (fun hgs dg => if hgs.any (fun hg => hg == dg) then hgs else dg :: hgs)
    hooksGlobs

/-- Flag resolution of `publicationsControllerOptions` (src/controller.ts
lines 282-283) and `PublishCommandHandlerOptions` (src/publish.ts lines
177-178): `isDryRun = dryRunArg`, `isVerbose = isDryRun || verboseArg`.
Returns `(isVerbose, isDryRun)`. -/
def resolveFlags (verboseArg dryRunArg : Bool) : Bool × Bool :=
  let isDryRun := dryRunArg
  let isVerbose := isDryRun || verboseArg
  (isVerbose, isDryRun)

/-- Observable events of one `executeHooks(step)` run: `dispatch i` marks
the start of plugin number `i` (its friendly-name log line and the start of
its hook call), `complete i` marks the resolution of that hook call, and
`skipWarn i` marks the warning printed for a plugin whose source is not a
`DiscoverFileSystemPluginSource`. Indices are positions in the registered
plugin list. -/
inductive HookEvent
  | dispatch (i : Nat)
  | complete (i : Nat)
  | skipWarn (i : Nat)
deriving DecidableEq, Repr

/-- Loop of `PublishCommandHandlerContext.executeHooks` (src/publish.ts
lines 415-446) as an event trace. For each plugin in registration order:
a non file system source logs a warning and is skipped; an `Action` plugin
(the shell executable wrapper) is started with `hook.execute(pc)` WITHOUT
`await`, so its completion is pending until the event loop turns after the
synchronous loop ends; a `HookModulePlugin` handler is called with `await`
when `isAsync` and directly otherwise, completing before the loop
continues in both cases. Pending completions resolve after the loop, in
start order (a subprocess exit can only be observed at an event loop turn,
and the loop body contains no such turn between one dispatch and the
next). -/
def executeHooksGo : Nat → List Plugin → List Nat → List HookEvent
  | _, [], pending => pending.map HookEvent.complete
  | i, p :: rest, pending =>
    if p.source.isFileSystemSource = false then
      HookEvent.skipWarn i :: executeHooksGo (i + 1) rest pending
    else
      match p with
      | .shellExe _ _ =>
        HookEvent.dispatch i :: executeHooksGo (i + 1) rest (pending ++ [i])
      | .hookModule _ _ _ =>
        HookEvent.dispatch i :: HookEvent.complete i ::
          executeHooksGo (i + 1) rest pending

/-- `PublishCommandHandlerContext.executeHooks` over the registered plugin
list, as the trace of its observable events. -/
def executeHooks (plugins : List Plugin) : List HookEvent :=
  executeHooksGo 0 plugins []

/-- Position of the first occurrence of an event in a trace. -/
def eventPos (tr : List HookEvent) (e : HookEvent) : Option Nat :=
  tr.findIdx? fun x => x == e

/-- The total-order property claimed for `executeHooks`: for every pair of
plugin indices `i < j` whose events both appear in the trace, plugin number
`i` completes before plugin number `j` is dispatched. -/
def completesBeforeLaterDispatch (tr : List HookEvent) (n : Nat) : Bool :=
  (List.range n).all fun i =>
    (List.range n).all fun j =>
      if i < j then
        match eventPos tr (.complete i), eventPos tr (.dispatch j) with
        | some a, some b => a < b
        | _, _ => true
      else true

/-- A registered executable shell hook (index 0 of the failing input for
the dispatch-order claim). -/
def shellHookP0 : Plugin :=
  .shellExe
    (.fileSystem "/p/a.hook-pubctl.sh" "a.hook-pubctl.sh" "/p/a.hook-pubctl.sh"
      "/p" "*.hook-pubctl.*")
    ["/bin/sh", "-c", "/p/a.hook-pubctl.sh"]

/-- A registered synchronous module hook (index 1 of the failing input for
the dispatch-order claim). -/
def syncModuleHookP1 : Plugin :=
  .hookModule
    (.fileSystem "/p/b.hook-pubctl.ts" "b.hook-pubctl.ts" "/p/b.hook-pubctl.ts"
      "/p" "*.hook-pubctl.*")
    ⟨.callable false⟩ false

/-- Observable events of one `clean` run: the awaited CLEAN hook dispatch,
then per cleanup target either the dry-run message or the removal. -/
inductive CleanEvent
  | hooksExecuted
  | wouldDelete (f : String)
  | deleted (f : String)
deriving DecidableEq, Repr

/-- The fixed cleanup targets of `clean` (src/controller.ts line 745,
src/publish.ts line 1244). -/
def cleanupTargets : List String := ["go.sum", "public", "resources"]

/-- `PublicationsController.clean` (src/controller.ts lines 743-755) as an
event trace, with the filesystem existence test explicit: first the CLEAN
hooks are dispatched and awaited, then for each fixed target that exists,
dry-run logs the would-delete message ("rm -f", file) and a real run
removes the file recursively. A target that does not exist produces no
event. -/
def clean (isDryRun : Bool) (existsFs : String → Bool) : List CleanEvent :=
  CleanEvent.hooksExecuted ::
    cleanupTargets.flatMap fun f =>
      if existsFs f then
        if isDryRun then [CleanEvent.wouldDelete f] else [CleanEvent.deleted f]
      else []

/-- Helper: a JavaScript record assignment with a key absent from the
record appends the pair. -/
theorem jsRecordSet_append (m : List (String × String)) (k v : String)
    (h : (m.any fun p => p.1 == k) = false) :
    jsRecordSet m k v = m ++ [(k, v)] := by
  simp only [jsRecordSet, h, Bool.false_eq_true, if_false]

/-- Helper: folding record assignments over pairs with pairwise distinct
keys, none of which occurs in the accumulator, appends the pairs. -/
theorem foldl_jsRecordSet_append (pairs : List (String × String)) :
    ∀ acc : List (String × String),
      (pairs.map Prod.fst).Nodup →
      (∀ k ∈ pairs.map Prod.fst, (acc.any fun p => p.1 == k) = false) →
      pairs.foldl (fun m kv => jsRecordSet m kv.1 kv.2) acc = acc ++ pairs := by
  induction pairs with
  | nil => intro acc _ _; simp
  | cons kv rest ih =>
    intro acc hnd hdisj
    have hset : jsRecordSet acc kv.1 kv.2 = acc ++ [kv] := by
      rw [jsRecordSet_append acc kv.1 kv.2 (hdisj kv.1 (by simp))]
    have hnd' : (rest.map Prod.fst).Nodup := (List.nodup_cons.mp (by simpa using hnd)).2
    have hkv : kv.1 ∉ rest.map Prod.fst := (List.nodup_cons.mp (by simpa using hnd)).1
    have hdisj' : ∀ k ∈ rest.map Prod.fst,
        ((acc ++ [kv]).any fun p => p.1 == k) = false := by
      intro k hk
      rw [List.any_append]
      have h1 : (acc.any fun p => p.1 == k) = false :=
        hdisj k (by simp [hk])
      have h2 : ([kv].any fun p => p.1 == k) = false := by
        simp only [List.any_cons, List.any_nil, Bool.or_false]
        exact beq_eq_false_iff_ne.mpr fun he => hkv (he ▸ hk)
      rw [h1, h2]
      rfl
    calc (kv :: rest).foldl (fun m p => jsRecordSet m p.1 p.2) acc
        = rest.foldl (fun m p => jsRecordSet m p.1 p.2) (acc ++ [kv]) := by
          rw [List.foldl_cons, hset]
      _ = (acc ++ [kv]) ++ rest := ih (acc ++ [kv]) hnd' hdisj'
      _ = acc ++ kv :: rest := by simp

/-- Helper: filterMap with a boolean guard equals filter then map. -/
theorem filterMap_guard (l : List WalkEntry) (f : WalkEntry → PluginSource) :
    (l.filterMap fun we => if we.isFile then some (f we) else none)
      = (l.filter WalkEntry.isFile).map f := by
  induction l with
  | nil => rfl
  | cons we rest ih =>
    cases h : we.isFile <;>
      simp [List.filterMap_cons, List.filter_cons, h, ih]

/-- C1: the claim states that `executeHooks` awaits every asynchronous
hook to completion before the next dispatch, so that hooks observe a total
order equal to discovery order. The code at src/publish.ts line 435 starts
an Action (shell executable) plugin with `hook.execute(pc)` and does NOT
await it: with a shell hook followed by a module hook, the second hook is
dispatched before the first completes, and the total-order property is
false on the trace. -/
theorem C1_executeHooks_shell_not_awaited :
    executeHooks [shellHookP0, syncModuleHookP1] =
      [HookEvent.dispatch 0, HookEvent.dispatch 1,
        HookEvent.complete 1, HookEvent.complete 0] ∧
    completesBeforeLaterDispatch
      (executeHooks [shellHookP0, syncModuleHookP1]) 2 = false := by
  constructor
  · rfl
  · decide

/-- C2: for a discovered file whose extension is not ".ts", registration
returns a valid `ShellExePlugin` exactly when the execute permission bit is
set (with every file treated as executable when no POSIX mode is
available); otherwise it returns the invalid registration with diagnostic
"executable bit not set on source". The registrar is a total function, so
no exception is raised. -/
theorem C2_nonmodule_registration_by_exec_bit (stat : String → Option Nat)
    (dynImport : String → ImportOutcome) (sid fn abs dp g : String)
    (hext : extname abs ≠ ".ts") :
    (fileSystemPluginRegistrar stat dynImport abs
        (.fileSystem sid fn abs dp g)).isValidShellExe = execBitSet (stat abs) ∧
    (execBitSet (stat abs) = true →
      fileSystemPluginRegistrar stat dynImport abs (.fileSystem sid fn abs dp g) =
        .valid (.fileSystem sid fn abs dp g)
          (.shellExe (.fileSystem sid fn abs dp g) ["/bin/sh", "-c", abs])) ∧
    (execBitSet (stat abs) = false →
      fileSystemPluginRegistrar stat dynImport abs (.fileSystem sid fn abs dp g) =
        .invalid (.fileSystem sid fn abs dp g)
          [⟨.fileSystem sid fn abs dp g, ["executable bit not set on source"]⟩]) := by
  cases hm : stat abs with
  | none =>
    simp [fileSystemPluginRegistrar, hext, shellFileRegistrar, isExecutable,
      execBitSet, hm, PluginRegistration.isValidShellExe]
  | some m =>
    cases hb : (Nat.land m 1 != 0) <;>
      simp [fileSystemPluginRegistrar, hext, shellFileRegistrar, isExecutable,
        execBitSet, hm, hb, PluginRegistration.isValidShellExe]

/-- C2 witness: a non-".ts" file with mode 0o755 registers as a valid
shell executable plugin. -/
theorem C2_witness :
    extname "/p/x.hook-pubctl.sh" ≠ ".ts" ∧
    execBitSet ((fun _ => some 493) "/p/x.hook-pubctl.sh") = true ∧
    fileSystemPluginRegistrar (fun _ => some 493) (fun _ => .importedFalsy)
        "/p/x.hook-pubctl.sh"
        (.fileSystem "/p/x.hook-pubctl.sh" "x.hook-pubctl.sh"
          "/p/x.hook-pubctl.sh" "/p" "*.hook-pubctl.*") =
      .valid
        (.fileSystem "/p/x.hook-pubctl.sh" "x.hook-pubctl.sh"
          "/p/x.hook-pubctl.sh" "/p" "*.hook-pubctl.*")
        (.shellExe
          (.fileSystem "/p/x.hook-pubctl.sh" "x.hook-pubctl.sh"
            "/p/x.hook-pubctl.sh" "/p" "*.hook-pubctl.*")
          ["/bin/sh", "-c", "/p/x.hook-pubctl.sh"]) :=
  ⟨by decide, by decide,
    (C2_nonmodule_registration_by_exec_bit (fun _ => some 493)
      (fun _ => .importedFalsy) "/p/x.hook-pubctl.sh" "x.hook-pubctl.sh"
      "/p/x.hook-pubctl.sh" "/p" "*.hook-pubctl.*" (by decide)).2.1 (by decide)⟩

/-- Helper: whenever `isExecutable` succeeds, the suggested command is the
POSIX shell invocation of the file. -/
theorem isExecutable_some (mode : Option Nat) (p : String) (cmd : List String)
    (h : isExecutable mode p = some cmd) : cmd = ["/bin/sh", "-c", p] := by
  simp only [isExecutable] at h
  split at h
  · exact (Option.some_inj.mp h).symm
  · exact absurd h (by simp)

/-- C3: for a discovered ".ts" file the module registrar never propagates
an exception (it is a total function; the try/catch turns a thrown import
error into data): a failed import yields an invalid registration carrying
the caught error as diagnostic; an imported module whose default export is
callable yields a valid registration whose plugin records the detected
`isAsync` flag; a non-callable default export yields the invalid
registration with diagnostic "does not have a default function". -/
theorem C3_module_registrar_outcomes (stat : String → Option Nat)
    (dynImport : String → ImportOutcome) (sid fn abs dp g : String)
    (hext : extname abs = ".ts") :
    (∀ err, dynImport abs = .thrown err →
      fileSystemPluginRegistrar stat dynImport abs (.fileSystem sid fn abs dp g) =
        .invalid (.fileSystem sid fn abs dp g)
          [⟨.fileSystem sid fn abs dp g, [err]⟩]) ∧
    (∀ m isAsync, dynImport abs = .imported m →
      m.defaultExport = .callable isAsync →
      fileSystemPluginRegistrar stat dynImport abs (.fileSystem sid fn abs dp g) =
        .valid (.fileSystem sid fn abs dp g)
          (.hookModule (.fileSystem sid fn abs dp g) m isAsync)) ∧
    (∀ m, dynImport abs = .imported m →
      (∀ a, m.defaultExport ≠ .callable a) →
      fileSystemPluginRegistrar stat dynImport abs (.fileSystem sid fn abs dp g) =
        .invalid (.fileSystem sid fn abs dp g)
          [⟨.fileSystem sid fn abs dp g, ["does not have a default function"]⟩]) := by
  refine ⟨?_, ?_, ?_⟩
  · intro err him
    simp [fileSystemPluginRegistrar, hext, typeScriptFileRegistrar, him]
  · intro m isAsync him hcall
    simp [fileSystemPluginRegistrar, hext, typeScriptFileRegistrar, him,
      isValidModule, hcall]
  · intro m him hncall
    cases hde : m.defaultExport with
    | callable a => exact absurd hde (hncall a)
    | notCallable =>
      simp [fileSystemPluginRegistrar, hext, typeScriptFileRegistrar, him,
        isValidModule, hde]
    | missing =>
      simp [fileSystemPluginRegistrar, hext, typeScriptFileRegistrar, him,
        isValidModule, hde]

/-- C3 witness: a ".ts" file whose import throws "SyntaxError: boom"
registers as invalid with that error as its diagnostic. -/
theorem C3_witness :
    extname "/p/b.hook-pubctl.ts" = ".ts" ∧
    (fun _ : String => ImportOutcome.thrown "SyntaxError: boom")
        "/p/b.hook-pubctl.ts" = .thrown "SyntaxError: boom" ∧
    fileSystemPluginRegistrar (fun _ => some 493)
        (fun _ => .thrown "SyntaxError: boom") "/p/b.hook-pubctl.ts"
        (.fileSystem "/p/b.hook-pubctl.ts" "b.hook-pubctl.ts"
          "/p/b.hook-pubctl.ts" "/p" "*.hook-pubctl.*") =
      .invalid
        (.fileSystem "/p/b.hook-pubctl.ts" "b.hook-pubctl.ts"
          "/p/b.hook-pubctl.ts" "/p" "*.hook-pubctl.*")
        [⟨.fileSystem "/p/b.hook-pubctl.ts" "b.hook-pubctl.ts"
            "/p/b.hook-pubctl.ts" "/p" "*.hook-pubctl.*",
          ["SyntaxError: boom"]⟩] :=
  ⟨by decide, rfl,
    (C3_module_registrar_outcomes (fun _ => some 493)
      (fun _ => .thrown "SyntaxError: boom") "/p/b.hook-pubctl.ts"
      "b.hook-pubctl.ts" "/p/b.hook-pubctl.ts" "/p" "*.hook-pubctl.*"
      (by decide)).1 "SyntaxError: boom" rfl⟩

/-- C4: with `--arg` and `--argv` lists of unequal length, resolution
returns (it is a total function, so it completes without aborting) an
empty custom-argument map together with a warning containing
"must be balanced"; with lists of equal length (and pairwise distinct
names, so that the record assignments do not collide) the map is exactly
the positional pairing of names with values, with no warning. -/
theorem C4_custom_argument_pairing (an av : List String) :
    (an.length ≠ av.length →
      resolveCustomArguments an av
        = ([], [balancedWarningText an.length av.length]) ∧
      ∃ pre post : String,
        balancedWarningText an.length av.length
          = pre ++ "must be balanced" ++ post) ∧
    (an.length = av.length → an.Nodup →
      resolveCustomArguments an av = (an.zip av, [])) := by
  constructor
  · intro hne
    refine ⟨by simp [resolveCustomArguments, hne], "--arg and --argv ",
      ": " ++ "there are " ++ toString an.length ++ " arg names and "
        ++ toString av.length ++ " values", ?_⟩
    have h1 : ("--arg and --argv " ++ "must be balanced" : String)
        = "--arg and --argv must be balanced" := by decide
    rw [h1, balancedWarningText]
    simp only [String.append_assoc]
  · intro heq hnd
    have hkeys : (an.zip av).map Prod.fst = an :=
      List.map_fst_zip an av (le_of_eq heq)
    have h := foldl_jsRecordSet_append (an.zip av) []
      (by rw [hkeys]; exact hnd) (by intro k _; rfl)
    simp only [List.nil_append] at h
    simp [resolveCustomArguments, heq, h]

/-- C4 witness: the unbalanced pair from scenario B leaves the map empty
with the balancing warning, and a balanced pair pairs positionally. -/
theorem C4_witness :
    (["foo", "baz"].length ≠ ["bar"].length ∧
      resolveCustomArguments ["foo", "baz"] ["bar"]
        = ([], [balancedWarningText 2 1])) ∧
    resolveCustomArguments ["foo", "baz"] ["bar", "qux"]
      = ([("foo", "bar"), ("baz", "qux")], []) :=
  ⟨⟨by decide,
      ((C4_custom_argument_pairing ["foo", "baz"] ["bar"]).1 (by decide)).1⟩,
    (C4_custom_argument_pairing ["foo", "baz"] ["bar", "qux"]).2 rfl
      (by decide)⟩

/-- C5: every plugin registered by the shell file registrar has a
`shellCmd` whose output, after stripping the three shell-invocation
wrapper tokens, is exactly the lifecycle-step name, the configured
targets, "--verbose" exactly when the options are verbose, "--dry-run"
exactly when the options are dry-run, then each custom argument as a name
value pair in insertion order. -/
theorem C5_shellCmd_argument_order (stat : String → Option Nat)
    (opts : ControllerOptions) (step sid fn abs dp g : String) (p : Plugin)
    (hreg : shellFileRegistrar stat (.fileSystem sid fn abs dp g) =
      .valid (.fileSystem sid fn abs dp g) p) :
    ∃ cmd, pluginShellCmd opts step p = some cmd ∧
      cmd.drop 3 = [step] ++ opts.targets
        ++ (if opts.isVerbose then ["--verbose"] else [])
        ++ (if opts.isDryRun then ["--dry-run"] else [])
        ++ opts.args.flatMap (fun a => [a.1, a.2]) := by
  have hp : p = .shellExe (.fileSystem sid fn abs dp g) ["/bin/sh", "-c", abs] := by
    simp only [shellFileRegistrar] at hreg
    rcases hex : isExecutable (stat abs) abs with _ | cmd0
    · rw [hex] at hreg
      exact absurd hreg (by simp)
    · have hcmd : cmd0 = ["/bin/sh", "-c", abs] := isExecutable_some _ _ _ hex
      rw [hex] at hreg
      simp only [PluginRegistration.valid.injEq] at hreg
      rw [← hreg.2, hcmd]
  subst hp
  refine ⟨_, rfl, ?_⟩
  simp [shellCmdEnhancer, List.append_assoc]

/-- C5 witness: a concrete verbose dry-run configuration with two targets
and one custom argument produces exactly the claimed tail. -/
theorem C5_witness :
    ∃ cmd,
      pluginShellCmd
          ⟨["t1", "t2"], true, true, [("name", "value")]⟩ "clean"
          (.shellExe
            (.fileSystem "/p/x.sh" "x.sh" "/p/x.sh" "/p" "*.hook-pubctl.*")
            ["/bin/sh", "-c", "/p/x.sh"]) = some cmd ∧
      cmd.drop 3 = ["clean"] ++ ["t1", "t2"]
        ++ (if true then ["--verbose"] else [])
        ++ (if true then ["--dry-run"] else [])
        ++ [("name", "value")].flatMap (fun a : String × String => [a.1, a.2]) :=
  C5_shellCmd_argument_order (fun _ => some 493)
    ⟨["t1", "t2"], true, true, [("name", "value")]⟩ "clean"
    "/p/x.sh" "x.sh" "/p/x.sh" "/p" "*.hook-pubctl.*"
    (.shellExe (.fileSystem "/p/x.sh" "x.sh" "/p/x.sh" "/p" "*.hook-pubctl.*")
      ["/bin/sh", "-c", "/p/x.sh"])
    (by decide)

/-- C6: discovery is deterministic (it depends only on the filesystem
state visible through glob expansion: two expansions that agree on the
glob list give identical candidate sequences), and the candidate sequence
is the concatenation, in glob-list order, of the file entries of each glob
in traversal order; non-file matches are skipped silently and a glob that
matches nothing contributes no candidates without failing the pass (the
function is total). -/
theorem C6_discovery_deterministic_ordered (e1 e2 : String → List WalkEntry)
    (rel : String → String → String) (home : String) (globs : List String) :
    ((∀ g ∈ globs, e1 g = e2 g) →
      discoverCandidates e1 rel home globs
        = discoverCandidates e2 rel home globs) ∧
    discoverCandidates e1 rel home globs
      = globs.flatMap fun g =>
          ((e1 g).filter WalkEntry.isFile).map fun we =>
            PluginSource.fileSystem we.path (rel home we.path) we.path home g := by
  induction globs with
  | nil => exact ⟨fun _ => rfl, rfl⟩
  | cons g gs ih =>
    constructor
    · intro hagree
      simp only [discoverCandidates]
      rw [hagree g (by simp),
        ih.1 fun g' hg' => hagree g' (List.mem_cons_of_mem g hg')]
    · simp only [discoverCandidates, List.flatMap_cons, ih.2,
        filterMap_guard]

/-- C6 witness: a two-glob discovery over a small filesystem, with a glob
matching one file and one directory and a glob matching nothing, produces
exactly the file candidate in glob order. -/
theorem C6_witness :
    discoverCandidates
        (fun g => if g == "*.hook-pubctl.*"
          then [⟨"/p/a.hook-pubctl.sh", true⟩, ⟨"/p/sub.hook-pubctl.d", false⟩]
          else [])
        (fun _ p => p) "/p" ["*.hook-pubctl.*", "extra/*"]
      = discoverCandidates
        (fun g => if g == "*.hook-pubctl.*"
          then [⟨"/p/a.hook-pubctl.sh", true⟩, ⟨"/p/sub.hook-pubctl.d", false⟩]
          else [])
        (fun _ p => p) "/p" ["*.hook-pubctl.*", "extra/*"] ∧
    discoverCandidates
        (fun g => if g == "*.hook-pubctl.*"
          then [⟨"/p/a.hook-pubctl.sh", true⟩, ⟨"/p/sub.hook-pubctl.d", false⟩]
          else [])
        (fun _ p => p) "/p" ["*.hook-pubctl.*", "extra/*"]
      = [.fileSystem "/p/a.hook-pubctl.sh" "/p/a.hook-pubctl.sh"
          "/p/a.hook-pubctl.sh" "/p" "*.hook-pubctl.*"] :=
  ⟨(C6_discovery_deterministic_ordered _ _ (fun _ p => p) "/p"
      ["*.hook-pubctl.*", "extra/*"]).1 (fun _ _ => rfl),
    by decide⟩

/-- C7 counterexample: the claim asserts that every dry-run `clean`
invocation emits a would-delete message for each of the fixed cleanup
targets, but on a filesystem where none of the targets exist the trace is
only the hook dispatch and carries no message for "go.sum". -/
theorem C7_counterexample :
    clean true (fun _ => false) = [CleanEvent.hooksExecuted] ∧
    CleanEvent.wouldDelete "go.sum" ∉ clean true (fun _ => false) := by
  constructor
  · rfl
  · decide

/-- C7 amended: every dry-run `clean` invocation removes nothing, emits a
would-delete message for each fixed cleanup target THAT EXISTS in the
filesystem, and dispatches (and awaits) the CLEAN hooks before any
deletion or deletion message. -/
theorem C7_dry_run_clean (existsFs : String → Bool) :
    (∀ f, CleanEvent.deleted f ∉ clean true existsFs) ∧
    (∀ f ∈ cleanupTargets, existsFs f = true →
      CleanEvent.wouldDelete f ∈ clean true existsFs) ∧
    (clean true existsFs).head? = some CleanEvent.hooksExecuted := by
  refine ⟨?_, ?_, rfl⟩
  · intro f
    simp only [clean, cleanupTargets, List.flatMap_cons, List.flatMap_nil,
      List.append_nil]
    cases h1 : existsFs "go.sum" <;> cases h2 : existsFs "public" <;>
      cases h3 : existsFs "resources" <;> simp
  · intro f hf hex
    simp only [cleanupTargets, List.mem_cons, List.not_mem_nil, or_false] at hf
    rcases hf with hf | hf | hf <;> subst hf <;>
      cases h1 : existsFs "go.sum" <;> cases h2 : existsFs "public" <;>
        cases h3 : existsFs "resources" <;>
          simp_all [clean, cleanupTargets]

/-- C7 witness of the amended statement: with only "public" existing, the
dry run emits the would-delete message for "public". -/
theorem C7_witness :
    CleanEvent.wouldDelete "public" ∈ clean true (fun f => f == "public") :=
  (C7_dry_run_clean (fun f => f == "public")).2.1 "public" (by decide)
    (by decide)

/-- C8: the resolved hook-glob list always contains the default glob
"*.hook-pubctl.*"; when it is absent from the CLI-supplied list it is
unshifted to the front with the CLI globs following in their original
order, and when it is already present the list is unchanged. -/
theorem C8_default_glob_unshifted (cli : List String) :
    "*.hook-pubctl.*" ∈ addDefaultGlobs cli ∧
    ("*.hook-pubctl.*" ∉ cli →
      addDefaultGlobs cli = "*.hook-pubctl.*" :: cli) ∧
    ("*.hook-pubctl.*" ∈ cli → addDefaultGlobs cli = cli) := by
  by_cases hmem : "*.hook-pubctl.*" ∈ cli
  · have heq : addDefaultGlobs cli = cli := by
      simp [addDefaultGlobs, defaultHookGlobs, hmem]
    refine ⟨?_, fun hno => absurd hmem hno, fun _ => heq⟩
    rw [heq]
    exact hmem
  · have heq : addDefaultGlobs cli = "*.hook-pubctl.*" :: cli := by
      simp [addDefaultGlobs, defaultHookGlobs, hmem]
    refine ⟨?_, fun _ => heq, fun hmem' => absurd hmem' hmem⟩
    rw [heq]
    exact List.mem_cons_self _ _

/-- C8 witness: a CLI list without the default glob gets it unshifted to
the front, keeping the CLI order after it. -/
theorem C8_witness :
    "*.hook-pubctl.*" ∉ ["static/**/*.sh", "data/*.ts"] ∧
    addDefaultGlobs ["static/**/*.sh", "data/*.ts"]
      = ["*.hook-pubctl.*", "static/**/*.sh", "data/*.ts"] :=
  ⟨by decide,
    (C8_default_glob_unshifted ["static/**/*.sh", "data/*.ts"]).2.1
      (by decide)⟩

/-- C9: the resolved flags satisfy the invariant that dry-run implies
verbose, while setting only the verbose flag never sets dry-run. The
options record of the embedding is a pure value, mirroring the readonly
fields constructed once per run. -/
theorem C9_dry_run_implies_verbose (verboseArg dryRunArg : Bool) :
    ((resolveFlags verboseArg dryRunArg).2 = true →
      (resolveFlags verboseArg dryRunArg).1 = true) ∧
    (resolveFlags verboseArg false).2 = false := by
  cases verboseArg <;> cases dryRunArg <;> simp [resolveFlags]

/-- C9 witness: a dry run is verbose, and a verbose-only run is not a dry
run. -/
theorem C9_witness :
    (resolveFlags false true).1 = true ∧ (resolveFlags true false).2 = false :=
  ⟨(C9_dry_run_implies_verbose false true).1 (by decide),
    (C9_dry_run_implies_verbose true false).2⟩

/-- C10: for a plugin source that is not a filesystem source, both
registrars return (rather than raising an exception; both are total
functions) an invalid registration whose diagnostic states that they only
know how to register file system sources. -/
theorem C10_nonfs_source_invalid (stat : String → Option Nat)
    (dynImport : String → ImportOutcome) (src : PluginSource)
    (h : src.isFileSystemSource = false) :
    shellFileRegistrar stat src =
      .invalid src
        [⟨src, ["shellFileRegistrar() only knows how to register file system sources"]⟩] ∧
    typeScriptFileRegistrar dynImport src =
      .invalid src
        [⟨src, ["typeScriptFileRegistrar() only knows how to register file system sources"]⟩] := by
  cases src with
  | fileSystem sid fn abs dp g => simp [PluginSource.isFileSystemSource] at h
  | other sid fn => exact ⟨rfl, rfl⟩

/-- C10 witness: a programmatic (non filesystem) source is rejected by both
registrars with the stated diagnostics. -/
theorem C10_witness :
    (PluginSource.other "builtin:inspect" "inspect").isFileSystemSource
        = false ∧
    shellFileRegistrar (fun _ => some 493)
        (.other "builtin:inspect" "inspect") =
      .invalid (.other "builtin:inspect" "inspect")
        [⟨.other "builtin:inspect" "inspect",
          ["shellFileRegistrar() only knows how to register file system sources"]⟩] :=
  ⟨by decide,
    (C10_nonfs_source_invalid (fun _ => some 493) (fun _ => .importedFalsy)
      (.other "builtin:inspect" "inspect") (by decide)).1⟩

end HugoAide
